import Mathlib

/-!
Shallow embedding of `src/prov/gni/src/gnix_freelist.c` — a fixed-size-element
free-list (object pool) allocator.

Addresses are modelled as `Int`; the free list and chunk list are lists of
node addresses, head first (`dlist_insert_tail` appends; `fl->freelist.next`
is the head).  C `int` fields are modelled as `Int`, with 32-bit twos
complement wrap (`wrap32`) applied at the one multiplication where overflow
is observable, `fl->refill_size *= fl->growth_factor`.  The system allocator
is an oracle `Calloc` mapping the two arguments of `calloc` to either a
fresh block base address or `none` (allocation failure).
-/

namespace GnixFreelist

/-- libfabric status codes used by this file (values from the fabric errno
headers, outside this repository; only `FI_SUCCESS = 0` and the distinctness
of the codes matter to the claims). -/
def FI_SUCCESS : Int := 0

def FI_ENOMEM : Int := 12

def FI_EAGAIN : Int := 11

/-- Modelled from the spec: the baseline initial fill size
(`GNIX_SFL_INIT_SIZE`, defined in `gnix_freelist.h`, which is not under
`src/`).  The spec gives no numeric value, only that it is a positive
documented default; it is fixed here as an explicit constant. -/
def GNIX_SFL_INIT_SIZE : Int := 100

/-- Modelled from the spec: the baseline refill size
(`GNIX_SFL_INIT_REFILL_SIZE`, defined in `gnix_freelist.h`, not under
`src/`); a positive documented default fixed here as a constant. -/
def GNIX_SFL_INIT_REFILL_SIZE : Int := 10

/-- Modelled from the spec: the default growth factor
(`GNIX_SFL_GROWTH_FACTOR`, defined in `gnix_freelist.h`, not under `src/`).
The spec states the default growth factor is 1, i.e. constant-size
refills. -/
def GNIX_SFL_GROWTH_FACTOR : Int := 1

/-- The 32-bit twos-complement wrap, the value a C `int` holds after an
arithmetic operation whose mathematical result is `z`. -/
def wrap32 (z : Int) : Int := (z + 2 ^ 31) % 2 ^ 32 - 2 ^ 31

/-- Model of `struct gnix_s_freelist`.  `freelist` and `chunks` hold node addresses,
head first.  `ts` is the thread-safety flag; the lock itself has no
observable sequential state and is not modelled. -/
structure SFL where
  elem_size : Int
  offset : Int
  refill_size : Int
  growth_factor : Int
  max_refill_size : Int
  ts : Bool
  freelist : List Int
  chunks : List Int
deriving Repr, DecidableEq

/-- The system allocator oracle: the two arguments of `calloc` (member
count, member size) either yield the base address of a fresh zero-filled
block or fail with `none`. -/
abbrev Calloc : Type := Int → Int → Option Int

/-- The free-list nodes created by one refill of `n` elements from a chunk
based at `b`: the loop in `__gnix_sfl_refill` starts at
`b + elem_size + offset` and advances by `elem_size`. -/
def refillNodes (fl : SFL) (b n : Int) : List Int :=
  (List.range n.toNat).map
    (fun i : Nat => b + fl.elem_size + fl.offset + (i : Int) * fl.elem_size)

/-- Embedding of `__gnix_sfl_refill(fl, n)`: `calloc(n+1, fl->elem_size)`; on failure
return `-FI_ENOMEM` with the state untouched; on success append the block
base to `chunks` (the chunk-list link occupies the first element-sized
region), then append `n` free-list nodes at
`base + elem_size + offset + i * elem_size` for `i = 0, …, n-1`. -/
def gnix_sfl_refill (fl : SFL) (n : Int) (calloc : Calloc) : Int × SFL :=
  match calloc (n + 1) fl.elem_size with
  | none => (-FI_ENOMEM, fl)
  | some elems =>
      (FI_SUCCESS,
        { fl with
          chunks := fl.chunks ++ [elems]
          freelist := fl.freelist ++ refillNodes fl elems n })

/-- Embedding of `_gnix_sfl_init`: resolve the zero-means-default policy parameters,
reset both lists, and perform the initial refill of `fill_size` elements.
The `ts` field is not written (the input state `fl0` provides its prior
contents). -/
def gnix_sfl_init (elem_size off init_size refill_size growth_factor
    max_refill_size : Int) (fl0 : SFL) (calloc : Calloc) : Int × SFL :=
  let fill_size := if init_size ≠ 0 then init_size else GNIX_SFL_INIT_SIZE
  let fl : SFL :=
    { elem_size := elem_size
      offset := off
      refill_size := if refill_size ≠ 0 then refill_size
                     else GNIX_SFL_INIT_REFILL_SIZE
      growth_factor := if growth_factor ≠ 0 then growth_factor
                       else GNIX_SFL_GROWTH_FACTOR
      max_refill_size := if max_refill_size ≠ 0 then max_refill_size
                         else fill_size
      ts := fl0.ts
      freelist := []
      chunks := [] }
  gnix_sfl_refill fl fill_size calloc

/-- Embedding of `_gnix_sfl_init_ts`: delegate to `_gnix_sfl_init`; on `FI_SUCCESS` set
`ts` to 1 (the lock construction has no sequential effect). -/
def gnix_sfl_init_ts (elem_size off init_size refill_size growth_factor
    max_refill_size : Int) (fl0 : SFL) (calloc : Calloc) : Int × SFL :=
  let r := gnix_sfl_init elem_size off init_size refill_size growth_factor
    max_refill_size fl0 calloc
  if r.1 = FI_SUCCESS then (r.1, { r.2 with ts := true }) else r

/-- The refill-size growth step inside `_gnix_sfe_alloc`:
`if (fl->refill_size < fl->max_refill_size) { int ns = fl->refill_size *=
fl->growth_factor; fl->refill_size = (ns >= fl->max_refill_size ?
fl->max_refill_size : ns); }`.  The multiplication is a C `int`
multiplication, hence `wrap32`. -/
def growRefillSize (fl : SFL) : SFL :=
  if fl.refill_size < fl.max_refill_size then
    let ns := wrap32 (fl.refill_size * fl.growth_factor)
    { fl with refill_size := if ns ≥ fl.max_refill_size then fl.max_refill_size else ns }
  else fl

/-- Result of `_gnix_sfe_alloc`: the returned status, the slot written to
`*e` (when successful), and the pool state after the call. -/
structure AllocResult where
  ret : Int
  slot : Option Int
  fl : SFL
deriving Repr, DecidableEq

/-- Embedding of `_gnix_sfe_alloc`: if the free list is empty, refill with the standing
refill size (propagating failure with the state untouched), apply the
growth step, and fail with `-FI_EAGAIN` if the free list is somehow still
empty; otherwise remove and return the head of the free list. -/
def gnix_sfe_alloc (fl : SFL) (calloc : Calloc) : AllocResult :=
  match fl.freelist with
  | de :: rest => ⟨FI_SUCCESS, some de, { fl with freelist := rest }⟩
  | [] =>
      let r := gnix_sfl_refill fl fl.refill_size calloc
      if r.1 ≠ FI_SUCCESS then ⟨r.1, none, r.2⟩
      else
        let fl2 := growRefillSize r.2
        match fl2.freelist with
        | [] => ⟨-FI_EAGAIN, none, fl2⟩
        | de :: rest => ⟨FI_SUCCESS, some de, { fl2 with freelist := rest }⟩

/-- Embedding of `_gnix_sfe_free`: reinitialise the node and append it to the tail of
the free list (`e->next = NULL` and `dlist_init(e)` have no observable
effect in the list-of-addresses model). -/
def gnix_sfe_free (e : Int) (fl : SFL) : SFL :=
  { fl with freelist := fl.freelist ++ [e] }

/-- The pool state reached after a sequence of `_gnix_sfe_alloc` calls,
each with its own allocator oracle. -/
def runAllocs (fl : SFL) (cs : List Calloc) : SFL :=
  cs.foldl (fun s c => (gnix_sfe_alloc s c).fl) fl

/-- Well-formedness of the growth policy: the growth factor is at least 1
(what init resolves a zero parameter to), the standing refill size is
non-negative and does not exceed the cap, and the growth multiplication
cannot overflow a 32-bit `int`. -/
def RefillInv (fl : SFL) : Prop :=
  1 ≤ fl.growth_factor ∧ 0 ≤ fl.refill_size ∧
  fl.refill_size ≤ fl.max_refill_size ∧
  fl.max_refill_size * fl.growth_factor < 2 ^ 31

instance (fl : SFL) : Decidable (RefillInv fl) := by
  unfold RefillInv
  infer_instance

/-- Caller memory the pool structure occupies before init (all fields
zero). -/
def flZero : SFL := ⟨0, 0, 0, 0, 0, false, [], []⟩

/-- Caller memory whose prior contents happen to have the `ts` flag set. -/
def flStale : SFL := ⟨3, 7, 5, 2, 9, true, [], []⟩

/-- An always-succeeding allocator handing out blocks based at `b`. -/
def callocAt (b : Int) : Calloc := fun _ _ => some b

/-- An always-failing allocator. -/
def callocFail : Calloc := fun _ _ => none

/-- A pool initialised with `refill_size = 100` larger than
`max_refill_size = 10` (all asserts of `_gnix_sfl_init` hold for these
arguments); its free list holds the single node of the initial fill. -/
def poolFat : SFL := (gnix_sfl_init 8 0 1 100 2 10 flZero (callocAt 1000)).2

/-- A pool state in which the growth multiplication overflows a 32-bit
`int`: `refill_size * growth_factor = 2^31`, while
`refill_size < max_refill_size`. -/
def poolOverflow : SFL := ⟨8, 0, 2 ^ 30, 2, 2 ^ 30 + 1, false, [], []⟩

/-- A pool with two free slots, for exercising the reuse order. -/
def poolTwo : SFL := ⟨8, 0, 4, 1, 4, false, [100, 108], [64]⟩

/-- A pool with exactly one free slot. -/
def poolOne : SFL := ⟨8, 0, 4, 1, 4, false, [100], [64]⟩

/-- A pool with an exhausted free list and a small standing refill size. -/
def poolEmpty : SFL := ⟨8, 0, 2, 1, 4, false, [], [64]⟩

/-! Helper lemmas. -/

lemma wrap32_eq_self (z : Int) (h1 : -(2 ^ 31) ≤ z) (h2 : z < 2 ^ 31) :
    wrap32 z = z := by
  unfold wrap32
  rw [Int.emod_eq_of_lt (by linarith) (by norm_num at h2 ⊢; omega)]
  ring

lemma refill_of_none (fl : SFL) (n : Int) (c : Calloc)
    (hc : c (n + 1) fl.elem_size = none) :
    gnix_sfl_refill fl n c = (-FI_ENOMEM, fl) := by
  simp [gnix_sfl_refill, hc]

lemma refill_of_some (fl : SFL) (n b : Int) (c : Calloc)
    (hc : c (n + 1) fl.elem_size = some b) :
    gnix_sfl_refill fl n c =
      (FI_SUCCESS,
        { fl with chunks := fl.chunks ++ [b],
                  freelist := fl.freelist ++ refillNodes fl b n }) := by
  simp [gnix_sfl_refill, hc]

lemma refillNodes_length (fl : SFL) (b n : Int) :
    (refillNodes fl b n).length = n.toNat := by
  simp [refillNodes]

lemma refillNodes_ne_nil (fl : SFL) (b n : Int) (hn : 1 ≤ n) :
    refillNodes fl b n ≠ [] := by
  intro h
  have hlen := congrArg List.length h
  rw [refillNodes_length] at hlen
  simp at hlen
  omega

lemma refillNodes_nodup (fl : SFL) (b n : Int) (he : fl.elem_size ≠ 0) :
    (refillNodes fl b n).Nodup := by
  unfold refillNodes
  refine List.Nodup.map ?_ (List.nodup_range n.toNat)
  intro i j hij
  simp only at hij
  have h1 : (i : Int) * fl.elem_size = (j : Int) * fl.elem_size := by linarith
  have h2 := mul_right_cancel₀ he h1
  exact_mod_cast h2

lemma grow_freelist (fl : SFL) : (growRefillSize fl).freelist = fl.freelist := by
  unfold growRefillSize
  split <;> rfl

lemma grow_chunks (fl : SFL) : (growRefillSize fl).chunks = fl.chunks := by
  unfold growRefillSize
  split <;> rfl

lemma grow_max (fl : SFL) :
    (growRefillSize fl).max_refill_size = fl.max_refill_size := by
  unfold growRefillSize
  split <;> rfl

lemma grow_growth (fl : SFL) :
    (growRefillSize fl).growth_factor = fl.growth_factor := by
  unfold growRefillSize
  split <;> rfl

lemma refill_ts (fl : SFL) (n : Int) (c : Calloc) :
    ((gnix_sfl_refill fl n c).2).ts = fl.ts := by
  unfold gnix_sfl_refill
  cases c (n + 1) fl.elem_size <;> rfl

lemma refill_refill_size (fl : SFL) (n : Int) (c : Calloc) :
    ((gnix_sfl_refill fl n c).2).refill_size = fl.refill_size := by
  unfold gnix_sfl_refill
  cases c (n + 1) fl.elem_size <;> rfl

lemma refill_growth (fl : SFL) (n : Int) (c : Calloc) :
    ((gnix_sfl_refill fl n c).2).growth_factor = fl.growth_factor := by
  unfold gnix_sfl_refill
  cases c (n + 1) fl.elem_size <;> rfl

lemma refill_max (fl : SFL) (n : Int) (c : Calloc) :
    ((gnix_sfl_refill fl n c).2).max_refill_size = fl.max_refill_size := by
  unfold gnix_sfl_refill
  cases c (n + 1) fl.elem_size <;> rfl

lemma refill_elem_size (fl : SFL) (n : Int) (c : Calloc) :
    ((gnix_sfl_refill fl n c).2).elem_size = fl.elem_size := by
  unfold gnix_sfl_refill
  cases c (n + 1) fl.elem_size <;> rfl

lemma refill_offset (fl : SFL) (n : Int) (c : Calloc) :
    ((gnix_sfl_refill fl n c).2).offset = fl.offset := by
  unfold gnix_sfl_refill
  cases c (n + 1) fl.elem_size <;> rfl

lemma grow_refill_size (fl : SFL) :
    (growRefillSize fl).refill_size =
      if fl.refill_size < fl.max_refill_size then
        (if wrap32 (fl.refill_size * fl.growth_factor) ≥ fl.max_refill_size
         then fl.max_refill_size
         else wrap32 (fl.refill_size * fl.growth_factor))
      else fl.refill_size := by
  unfold growRefillSize
  split <;> rfl

lemma alloc_of_cons (fl : SFL) (c : Calloc) (de : Int) (rest : List Int)
    (hf : fl.freelist = de :: rest) :
    gnix_sfe_alloc fl c = ⟨FI_SUCCESS, some de, { fl with freelist := rest }⟩ := by
  simp [gnix_sfe_alloc, hf]

lemma alloc_of_empty_none (fl : SFL) (c : Calloc) (hf : fl.freelist = [])
    (hc : c (fl.refill_size + 1) fl.elem_size = none) :
    gnix_sfe_alloc fl c = ⟨-FI_ENOMEM, none, fl⟩ := by
  simp [gnix_sfe_alloc, hf, gnix_sfl_refill, hc, FI_ENOMEM, FI_SUCCESS]

lemma alloc_of_empty_some_nil (fl : SFL) (c : Calloc) (b : Int)
    (hf : fl.freelist = []) (hc : c (fl.refill_size + 1) fl.elem_size = some b)
    (hn : fl.refill_size ≤ 0) :
    gnix_sfe_alloc fl c =
      ⟨-FI_EAGAIN, none,
        growRefillSize { fl with chunks := fl.chunks ++ [b], freelist := [] }⟩ := by
  have hnodes : refillNodes fl b fl.refill_size = [] := by
    have : fl.refill_size.toNat = 0 := by omega
    simp [refillNodes, this]
  simp [gnix_sfe_alloc, hf, gnix_sfl_refill, hc, hnodes, grow_freelist,
    FI_SUCCESS]

lemma alloc_of_empty_some_cons (fl : SFL) (c : Calloc) (b de : Int)
    (rest : List Int) (hf : fl.freelist = [])
    (hc : c (fl.refill_size + 1) fl.elem_size = some b)
    (hn : refillNodes fl b fl.refill_size = de :: rest) :
    gnix_sfe_alloc fl c =
      ⟨FI_SUCCESS, some de,
        { growRefillSize
            { fl with chunks := fl.chunks ++ [b], freelist := de :: rest }
          with freelist := rest }⟩ := by
  simp [gnix_sfe_alloc, hf, gnix_sfl_refill, hc, hn, grow_freelist, FI_SUCCESS]

lemma grow_min_spec (fl : SFL) (h : RefillInv fl) :
    (growRefillSize fl).refill_size =
      min (fl.refill_size * fl.growth_factor) fl.max_refill_size := by
  obtain ⟨hg, hr0, hrm, hov⟩ := h
  have hg0 : (0 : Int) ≤ fl.growth_factor := by linarith
  rw [grow_refill_size]
  by_cases hlt : fl.refill_size < fl.max_refill_size
  · have hub : fl.refill_size * fl.growth_factor < 2 ^ 31 :=
      lt_of_le_of_lt (mul_le_mul_of_nonneg_right hrm hg0) hov
    have hlb : (0 : Int) ≤ fl.refill_size * fl.growth_factor :=
      mul_nonneg hr0 hg0
    rw [if_pos hlt, wrap32_eq_self _ (by linarith) hub]
    by_cases hge : fl.refill_size * fl.growth_factor ≥ fl.max_refill_size
    · rw [if_pos hge, min_eq_right hge]
    · rw [if_neg hge]
      push_neg at hge
      rw [min_eq_left hge.le]
  · rw [if_neg hlt]
    push_neg at hlt
    have heq : fl.refill_size = fl.max_refill_size := le_antisymm hrm hlt
    have hle : fl.max_refill_size ≤ fl.refill_size * fl.growth_factor := by
      calc fl.max_refill_size = fl.refill_size * 1 := by rw [heq.symm]; ring
        _ ≤ fl.refill_size * fl.growth_factor :=
          mul_le_mul_of_nonneg_left hg hr0
    rw [min_eq_right hle, heq]

lemma grow_inv (fl : SFL) (h : RefillInv fl) :
    RefillInv (growRefillSize fl) ∧
    fl.refill_size ≤ (growRefillSize fl).refill_size := by
  have hmin := grow_min_spec fl h
  obtain ⟨hg, hr0, hrm, hov⟩ := h
  have hg0 : (0 : Int) ≤ fl.growth_factor := by linarith
  have hmono : fl.refill_size ≤ fl.refill_size * fl.growth_factor := by
    calc fl.refill_size = fl.refill_size * 1 := by ring
      _ ≤ fl.refill_size * fl.growth_factor := mul_le_mul_of_nonneg_left hg hr0
  unfold RefillInv
  refine ⟨⟨?_, ?_, ?_, ?_⟩, ?_⟩
  · rw [grow_growth]; exact hg
  · rw [hmin]; exact le_min (mul_nonneg hr0 hg0) (le_trans hr0 hrm)
  · rw [hmin, grow_max]; exact min_le_right _ _
  · rw [grow_max, grow_growth]; exact hov
  · rw [hmin]; exact le_min hmono hrm

lemma alloc_empty_some_fields (fl : SFL) (c : Calloc) (b : Int)
    (hf : fl.freelist = []) (hc : c (fl.refill_size + 1) fl.elem_size = some b) :
    (gnix_sfe_alloc fl c).fl.refill_size = (growRefillSize fl).refill_size ∧
    (gnix_sfe_alloc fl c).fl.max_refill_size = fl.max_refill_size ∧
    (gnix_sfe_alloc fl c).fl.growth_factor = fl.growth_factor ∧
    (gnix_sfe_alloc fl c).ret ≠ -FI_ENOMEM := by
  cases hn : refillNodes fl b fl.refill_size with
  | nil =>
      have hle : fl.refill_size ≤ 0 := by
        have hlen := congrArg List.length hn
        rw [refillNodes_length] at hlen
        simp at hlen
        omega
      rw [alloc_of_empty_some_nil fl c b hf hc hle]
      refine ⟨?_, ?_, ?_, ?_⟩
      · rw [grow_refill_size, grow_refill_size]
      · rw [grow_max]
      · rw [grow_growth]
      · norm_num [FI_EAGAIN, FI_ENOMEM]
  | cons de rest =>
      rw [alloc_of_empty_some_cons fl c b de rest hf hc hn]
      refine ⟨?_, ?_, ?_, ?_⟩
      · show (growRefillSize _).refill_size = _
        rw [grow_refill_size, grow_refill_size]
      · show (growRefillSize _).max_refill_size = _
        rw [grow_max]
      · show (growRefillSize _).growth_factor = _
        rw [grow_growth]
      · norm_num [FI_SUCCESS, FI_ENOMEM]

lemma alloc_inv (fl : SFL) (c : Calloc) (h : RefillInv fl) :
    RefillInv (gnix_sfe_alloc fl c).fl ∧
    fl.refill_size ≤ (gnix_sfe_alloc fl c).fl.refill_size ∧
    (gnix_sfe_alloc fl c).fl.max_refill_size = fl.max_refill_size := by
  cases hf : fl.freelist with
  | cons de rest =>
      rw [alloc_of_cons fl c de rest hf]
      exact ⟨h, le_refl _, rfl⟩
  | nil =>
      cases hc : c (fl.refill_size + 1) fl.elem_size with
      | none =>
          rw [alloc_of_empty_none fl c hf hc]
          exact ⟨h, le_refl _, rfl⟩
      | some b =>
          obtain ⟨h1, h2, h3, _⟩ := alloc_empty_some_fields fl c b hf hc
          obtain ⟨hinv, hmono⟩ := grow_inv fl h
          obtain ⟨g1, g2, g3, g4⟩ := hinv
          refine ⟨⟨?_, ?_, ?_, ?_⟩, ?_, h2⟩
          · rw [h3]; exact h.1
          · rw [h1]; exact g2
          · rw [h1, h2]; rw [grow_max] at g3; exact g3
          · rw [h2, h3]; exact h.2.2.2
          · rw [h1]; exact hmono

lemma runAllocs_nil (fl : SFL) : runAllocs fl [] = fl := rfl

lemma runAllocs_cons (fl : SFL) (c : Calloc) (cs : List Calloc) :
    runAllocs fl (c :: cs) = runAllocs (gnix_sfe_alloc fl c).fl cs := rfl

lemma runAllocs_inv (cs : List Calloc) (fl : SFL) (h : RefillInv fl) :
    RefillInv (runAllocs fl cs) ∧
    fl.refill_size ≤ (runAllocs fl cs).refill_size ∧
    (runAllocs fl cs).max_refill_size = fl.max_refill_size := by
  induction cs generalizing fl with
  | nil => exact ⟨h, le_refl _, rfl⟩
  | cons c cs ih =>
      obtain ⟨h1, h2, h3⟩ := alloc_inv fl c h
      obtain ⟨g1, g2, g3⟩ := ih (gnix_sfe_alloc fl c).fl h1
      rw [runAllocs_cons]
      exact ⟨g1, le_trans h2 g2, by rw [g3, h3]⟩

/-! Claim theorems. -/

/-- Claim C6: every successful `__gnix_sfl_refill(fl, n)` with `n > 0`
obtains one zero-initialised block through `calloc(n + 1, elem_size)` —
i.e. `(n + 1) * element_size` bytes — appends the block base (whose first
element-sized region serves as the chunk-list link) to the tail of
`chunks`, and appends the remaining `n` element-sized regions as free-list
nodes to the tail of `freelist` in block order, so `freelist` grows by
exactly `n` nodes and `chunks` by exactly one. -/
theorem C6_refill_success_links_block (fl : SFL) (n b : Int) (c : Calloc)
    (hn : 0 < n) (hc : c (n + 1) fl.elem_size = some b) :
    gnix_sfl_refill fl n c =
      (FI_SUCCESS,
        { fl with chunks := fl.chunks ++ [b],
                  freelist := fl.freelist ++ refillNodes fl b n }) ∧
    (gnix_sfl_refill fl n c).2.freelist.length = fl.freelist.length + n.toNat ∧
    (gnix_sfl_refill fl n c).2.chunks.length = fl.chunks.length + 1 := by
  have h := refill_of_some fl n b c hc
  refine ⟨h, ?_, ?_⟩
  · rw [h]
    show (fl.freelist ++ refillNodes fl b n).length = _
    rw [List.length_append, refillNodes_length]
  · rw [h]
    show (fl.chunks ++ [b]).length = _
    rw [List.length_append]
    rfl

theorem C6_witness :
    gnix_sfl_refill poolEmpty 2 (callocAt 1000) =
      (FI_SUCCESS,
        { poolEmpty with chunks := poolEmpty.chunks ++ [1000],
                         freelist := poolEmpty.freelist ++
                           refillNodes poolEmpty 1000 2 }) ∧
    (gnix_sfl_refill poolEmpty 2 (callocAt 1000)).2.freelist.length =
      poolEmpty.freelist.length + (2 : Int).toNat ∧
    (gnix_sfl_refill poolEmpty 2 (callocAt 1000)).2.chunks.length =
      poolEmpty.chunks.length + 1 :=
  C6_refill_success_links_block poolEmpty 2 1000 (callocAt 1000)
    (by decide) rfl

/-- Claim C7: when the system allocator cannot satisfy the bulk request,
`__gnix_sfl_refill` returns `-FI_ENOMEM` and leaves the pool state exactly
as it was — nothing is linked into `freelist` or `chunks`, previously
linked chunks and slots are intact — and the refill performed inside
`_gnix_sfe_alloc` likewise propagates `-FI_ENOMEM` with the state
unchanged, in particular without updating the standing refill size. -/
theorem C7_refill_failure_state_unchanged (fl : SFL) (n : Int) (c : Calloc)
    (hc : c (n + 1) fl.elem_size = none) (hf : fl.freelist = [])
    (hc2 : c (fl.refill_size + 1) fl.elem_size = none) :
    gnix_sfl_refill fl n c = (-FI_ENOMEM, fl) ∧
    gnix_sfe_alloc fl c = ⟨-FI_ENOMEM, none, fl⟩ :=
  ⟨refill_of_none fl n c hc, alloc_of_empty_none fl c hf hc2⟩

theorem C7_witness :
    gnix_sfl_refill poolEmpty 3 callocFail = (-FI_ENOMEM, poolEmpty) ∧
    gnix_sfe_alloc poolEmpty callocFail = ⟨-FI_ENOMEM, none, poolEmpty⟩ :=
  C7_refill_failure_state_unchanged poolEmpty 3 callocFail rfl rfl rfl

/-- Claim C8: `_gnix_sfl_init` never writes the `ts` field — afterwards it
holds whatever the memory of the caller held before — and only
`_gnix_sfl_init_ts` sets it (to 1), exactly when init succeeded. -/
theorem C8_init_never_writes_ts (es off is rs gf mx : Int) (fl0 : SFL)
    (c : Calloc) :
    (gnix_sfl_init es off is rs gf mx fl0 c).2.ts = fl0.ts ∧
    ((gnix_sfl_init_ts es off is rs gf mx fl0 c).1 = FI_SUCCESS →
      (gnix_sfl_init_ts es off is rs gf mx fl0 c).2.ts = true) ∧
    ((gnix_sfl_init_ts es off is rs gf mx fl0 c).1 ≠ FI_SUCCESS →
      (gnix_sfl_init_ts es off is rs gf mx fl0 c).2.ts = fl0.ts) := by
  have h1 : (gnix_sfl_init es off is rs gf mx fl0 c).2.ts = fl0.ts := by
    unfold gnix_sfl_init
    rw [refill_ts]
  refine ⟨h1, ?_, ?_⟩
  · intro hret
    by_cases hcase : (gnix_sfl_init es off is rs gf mx fl0 c).1 = FI_SUCCESS
    · simp only [gnix_sfl_init_ts, if_pos hcase]
    · simp only [gnix_sfl_init_ts, if_neg hcase] at hret
      exact absurd hret hcase
  · intro hret
    by_cases hcase : (gnix_sfl_init es off is rs gf mx fl0 c).1 = FI_SUCCESS
    · simp only [gnix_sfl_init_ts, if_pos hcase] at hret
      exact absurd hcase hret
    · simp only [gnix_sfl_init_ts, if_neg hcase]
      exact h1

theorem C8_witness :
    (gnix_sfl_init 8 0 2 2 1 4 flStale (callocAt 1000)).2.ts = true ∧
    (gnix_sfl_init_ts 8 0 2 2 1 4 flZero (callocAt 1000)).2.ts = true := by
  constructor
  · exact (C8_init_never_writes_ts 8 0 2 2 1 4 flStale (callocAt 1000)).1
  · exact (C8_init_never_writes_ts 8 0 2 2 1 4 flZero
      (callocAt 1000)).2.1 (by decide)

/-- Claim C9: in sequential execution the `-FI_EAGAIN` branch of
`_gnix_sfe_alloc` is unreachable: with a positive standing refill size (the
precondition `assert(n > 0)` of `__gnix_sfl_refill`, which init
establishes), a successful refill appends at least one node, so allocate
never returns `-FI_EAGAIN`. -/
theorem C9_eagain_unreachable_sequential (fl : SFL) (c : Calloc)
    (h : 1 ≤ fl.refill_size) :
    (gnix_sfe_alloc fl c).ret ≠ -FI_EAGAIN := by
  cases hf : fl.freelist with
  | cons de rest =>
      rw [alloc_of_cons fl c de rest hf]
      norm_num [FI_SUCCESS, FI_EAGAIN]
  | nil =>
      cases hc : c (fl.refill_size + 1) fl.elem_size with
      | none =>
          rw [alloc_of_empty_none fl c hf hc]
          norm_num [FI_ENOMEM, FI_EAGAIN]
      | some b =>
          cases hn : refillNodes fl b fl.refill_size with
          | nil => exact absurd hn (refillNodes_ne_nil fl b _ h)
          | cons de rest =>
              rw [alloc_of_empty_some_cons fl c b de rest hf hc hn]
              norm_num [FI_SUCCESS, FI_EAGAIN]

theorem C9_witness :
    1 ≤ poolEmpty.refill_size ∧
    (gnix_sfe_alloc poolEmpty (callocAt 1000)).ret ≠ -FI_EAGAIN :=
  ⟨by decide,
   C9_eagain_unreachable_sequential poolEmpty (callocAt 1000) (by decide)⟩

/-- Claim C10: the pointer handed out by allocate addresses the embedded
link field, not the element start: refill places the `i`-th free-list node
at `chunk base + (i + 1) * element_size + link_offset` (element start plus
link offset, the first element-sized region being the chunk link), and
allocate returns the head node pointer unadjusted. -/
theorem C10_slot_pointer_is_link_field (fl : SFL) (n b : Int) (c : Calloc)
    (hc : c (n + 1) fl.elem_size = some b) (g : SFL) (c2 : Calloc) (de : Int)
    (rest : List Int) (hg : g.freelist = de :: rest) :
    (gnix_sfl_refill fl n c).2.freelist =
      fl.freelist ++ (List.range n.toNat).map
        (fun i : Nat => b + ((i : Int) + 1) * fl.elem_size + fl.offset) ∧
    (gnix_sfe_alloc g c2).slot = some de := by
  constructor
  · rw [refill_of_some fl n b c hc]
    show fl.freelist ++ refillNodes fl b n = _
    unfold refillNodes
    have hfun : (fun i : Nat =>
        b + fl.elem_size + fl.offset + (i : Int) * fl.elem_size) =
        (fun i : Nat => b + ((i : Int) + 1) * fl.elem_size + fl.offset) := by
      funext i
      ring
    rw [hfun]
  · rw [alloc_of_cons g c2 de rest hg]

theorem C10_witness :
    (gnix_sfl_refill poolEmpty 2 (callocAt 1000)).2.freelist =
      poolEmpty.freelist ++ (List.range (2 : Int).toNat).map
        (fun i : Nat => 1000 + ((i : Int) + 1) * poolEmpty.elem_size +
          poolEmpty.offset) ∧
    (gnix_sfe_alloc poolOne (callocAt 1000)).slot = some 100 :=
  C10_slot_pointer_is_link_field poolEmpty 2 1000 (callocAt 1000) rfl
    poolOne (callocAt 1000) 100 [] rfl

/-- Claim C3 counterexample: with free list `[100, 108]` (non-empty, no
refill triggered anywhere in the sequence), allocate returns 100; after
releasing 100, the next allocate returns 108 — not the slot just released.
Tail-insert/head-remove makes reuse FIFO, not same-slot. -/
theorem C3_counterexample :
    (gnix_sfe_alloc poolTwo (callocAt 1000)).slot = some 100 ∧
    (gnix_sfe_alloc poolTwo (callocAt 1000)).fl.freelist = [108] ∧
    (gnix_sfe_alloc (gnix_sfe_free 100 (gnix_sfe_alloc poolTwo
        (callocAt 1000)).fl) (callocAt 1000)).slot = some 108 ∧
    (gnix_sfe_alloc (gnix_sfe_free 100 (gnix_sfe_alloc poolTwo
        (callocAt 1000)).fl) (callocAt 1000)).slot ≠ some 100 := by
  decide

/-- Claim C3 (amended): allocate removes the head of the free list and
release appends at the tail, so reuse is FIFO: after allocating slot `x`
and releasing it, the next allocate returns `x` again exactly when `x` was
the only free slot (the free list became empty after the first allocate);
otherwise the previously free slots are handed out first. -/
theorem C3_amended_fifo_roundtrip (fl : SFL) (x : Int) (rest : List Int)
    (c1 c2 : Calloc) (hf : fl.freelist = x :: rest) (hx : x ∉ rest) :
    (gnix_sfe_alloc fl c1).slot = some x ∧
    ((gnix_sfe_alloc (gnix_sfe_free x (gnix_sfe_alloc fl c1).fl) c2).slot =
        some x ↔ rest = []) := by
  rw [alloc_of_cons fl c1 x rest hf]
  refine ⟨rfl, ?_⟩
  show (gnix_sfe_alloc (gnix_sfe_free x { fl with freelist := rest }) c2).slot
      = some x ↔ rest = []
  cases rest with
  | nil =>
      have h1 : (gnix_sfe_free x { fl with freelist := ([] : List Int) }).freelist
          = x :: [] := by
        simp [gnix_sfe_free]
      rw [alloc_of_cons _ c2 x [] h1]
      simp
  | cons y t =>
      have h1 : (gnix_sfe_free x { fl with freelist := y :: t }).freelist
          = y :: (t ++ [x]) := by
        simp [gnix_sfe_free]
      rw [alloc_of_cons _ c2 y (t ++ [x]) h1]
      constructor
      · intro h
        have hyx : y = x := by simpa using h
        exact absurd (hyx ▸ List.mem_cons_self y t) hx
      · intro h
        exact absurd h (List.cons_ne_nil y t)

theorem C3_witness :
    poolOne.freelist = 100 :: [] ∧ (100 : Int) ∉ ([] : List Int) ∧
    (gnix_sfe_alloc poolOne (callocAt 1000)).slot = some 100 ∧
    ((gnix_sfe_alloc (gnix_sfe_free 100 (gnix_sfe_alloc poolOne
        (callocAt 1000)).fl) (callocAt 1000)).slot = some 100 ↔
      ([] : List Int) = []) :=
  ⟨rfl, by decide,
   (C3_amended_fifo_roundtrip poolOne 100 [] (callocAt 1000) (callocAt 1000)
      rfl (by decide)).1,
   (C3_amended_fifo_roundtrip poolOne 100 [] (callocAt 1000) (callocAt 1000)
      rfl (by decide)).2⟩

/-- Claim C4: `_gnix_sfe_alloc` on an empty free list invokes refill with
the current standing refill size and propagates `-FI_ENOMEM` with the pool
unchanged when the refill fails; when the refill succeeds but contributes
no node (free list still empty) it returns `-FI_EAGAIN`; otherwise — after
a contributing refill or immediately — it removes and returns the slot at
the head of the free list, fully unlinked (not a member of the remaining
free list, nor of the chunk list). -/
theorem C4_alloc_branches (fl : SFL) (c : Calloc) :
    (fl.freelist = [] → c (fl.refill_size + 1) fl.elem_size = none →
      gnix_sfe_alloc fl c = ⟨-FI_ENOMEM, none, fl⟩) ∧
    (∀ b, fl.freelist = [] → c (fl.refill_size + 1) fl.elem_size = some b →
      (fl.refill_size ≤ 0 →
        (gnix_sfe_alloc fl c).ret = -FI_EAGAIN ∧
        (gnix_sfe_alloc fl c).fl.freelist = []) ∧
      (∀ de rest, refillNodes fl b fl.refill_size = de :: rest →
        (gnix_sfe_alloc fl c).ret = FI_SUCCESS ∧
        (gnix_sfe_alloc fl c).slot = some de ∧
        (gnix_sfe_alloc fl c).fl.freelist = rest ∧
        (fl.elem_size ≠ 0 → de ∉ (gnix_sfe_alloc fl c).fl.freelist))) ∧
    (∀ de rest, fl.freelist = de :: rest →
      gnix_sfe_alloc fl c = ⟨FI_SUCCESS, some de, { fl with freelist := rest }⟩ ∧
      (fl.freelist.Nodup → de ∉ (gnix_sfe_alloc fl c).fl.freelist) ∧
      (de ∉ fl.chunks → de ∉ (gnix_sfe_alloc fl c).fl.chunks)) := by
  refine ⟨?_, ?_, ?_⟩
  · intro hf hc
    exact alloc_of_empty_none fl c hf hc
  · intro b hf hc
    constructor
    · intro hle
      rw [alloc_of_empty_some_nil fl c b hf hc hle]
      refine ⟨rfl, ?_⟩
      show (growRefillSize _).freelist = _
      rw [grow_freelist]
    · intro de rest hn
      rw [alloc_of_empty_some_cons fl c b de rest hf hc hn]
      refine ⟨rfl, rfl, rfl, ?_⟩
      intro he
      have hnodup : (de :: rest).Nodup := hn ▸ refillNodes_nodup fl b _ he
      exact (List.nodup_cons.mp hnodup).1
  · intro de rest hf
    have h := alloc_of_cons fl c de rest hf
    rw [h]
    refine ⟨rfl, ?_, ?_⟩
    · intro hnodup
      rw [hf] at hnodup
      exact (List.nodup_cons.mp hnodup).1
    · intro hch
      exact hch

theorem C4_witness :
    gnix_sfe_alloc poolEmpty callocFail = ⟨-FI_ENOMEM, none, poolEmpty⟩ ∧
    gnix_sfe_alloc poolOne (callocAt 1000) =
      ⟨FI_SUCCESS, some 100, { poolOne with freelist := [] }⟩ :=
  ⟨(C4_alloc_branches poolEmpty callocFail).1 rfl rfl,
   ((C4_alloc_branches poolOne (callocAt 1000)).2.2 100 [] rfl).1⟩

/-- Claim C5: in `_gnix_sfl_init`, each size/factor parameter passed as 0
is replaced by its documented default — `init_size` and `refill_size` by
the baseline constants, `growth_factor` by 1 (constant-size refills), and
`max_refill_size` by the resolved initial fill size — while nonzero
parameters are used as given (the resolved fill size is observable as the
number of free-list nodes the initial refill creates). -/
theorem C5_init_zero_defaults (es off is rs gf mx b : Int) (fl0 : SFL)
    (c : Calloc) :
    (rs = 0 → (gnix_sfl_init es off is rs gf mx fl0 c).2.refill_size =
      GNIX_SFL_INIT_REFILL_SIZE) ∧
    (rs ≠ 0 → (gnix_sfl_init es off is rs gf mx fl0 c).2.refill_size = rs) ∧
    (gf = 0 → (gnix_sfl_init es off is rs gf mx fl0 c).2.growth_factor =
      GNIX_SFL_GROWTH_FACTOR ∧
      (gnix_sfl_init es off is rs gf mx fl0 c).2.growth_factor = 1) ∧
    (gf ≠ 0 → (gnix_sfl_init es off is rs gf mx fl0 c).2.growth_factor = gf) ∧
    (mx ≠ 0 → (gnix_sfl_init es off is rs gf mx fl0 c).2.max_refill_size = mx) ∧
    (mx = 0 → is ≠ 0 →
      (gnix_sfl_init es off is rs gf mx fl0 c).2.max_refill_size = is) ∧
    (mx = 0 → is = 0 →
      (gnix_sfl_init es off is rs gf mx fl0 c).2.max_refill_size =
        GNIX_SFL_INIT_SIZE) ∧
    (gnix_sfl_init es off is rs gf mx fl0 c).2.elem_size = es ∧
    (gnix_sfl_init es off is rs gf mx fl0 c).2.offset = off ∧
    (is = 0 → c (GNIX_SFL_INIT_SIZE + 1) es = some b →
      (gnix_sfl_init es off is rs gf mx fl0 c).2.freelist.length =
        GNIX_SFL_INIT_SIZE.toNat) ∧
    (is ≠ 0 → c (is + 1) es = some b →
      (gnix_sfl_init es off is rs gf mx fl0 c).2.freelist.length = is.toNat) := by
  refine ⟨?_, ?_, ?_, ?_, ?_, ?_, ?_, ?_, ?_, ?_, ?_⟩
  · intro h
    simp [gnix_sfl_init, refill_refill_size, h]
  · intro h
    simp [gnix_sfl_init, refill_refill_size, h]
  · intro h
    constructor <;> simp [gnix_sfl_init, refill_growth, h, GNIX_SFL_GROWTH_FACTOR]
  · intro h
    simp [gnix_sfl_init, refill_growth, h]
  · intro h
    simp [gnix_sfl_init, refill_max, h]
  · intro h h2
    simp [gnix_sfl_init, refill_max, h, h2]
  · intro h h2
    simp [gnix_sfl_init, refill_max, h, h2]
  · simp [gnix_sfl_init, refill_elem_size]
  · simp [gnix_sfl_init, refill_offset]
  · intro h hcb
    unfold gnix_sfl_init
    simp only [h, ne_eq, not_true_eq_false, if_false, ite_false]
    rw [refill_of_some _ GNIX_SFL_INIT_SIZE b c hcb]
    show (([] : List Int) ++ refillNodes _ b GNIX_SFL_INIT_SIZE).length = _
    rw [List.nil_append, refillNodes_length]
  · intro h hcb
    unfold gnix_sfl_init
    simp only [h, ne_eq, not_false_eq_true, if_true, ite_true]
    rw [refill_of_some _ is b c hcb]
    show (([] : List Int) ++ refillNodes _ b is).length = _
    rw [List.nil_append, refillNodes_length]

theorem C5_witness :
    (gnix_sfl_init 8 0 0 0 0 0 flZero (callocAt 1000)).2.refill_size =
      GNIX_SFL_INIT_REFILL_SIZE ∧
    (gnix_sfl_init 8 0 0 0 0 0 flZero (callocAt 1000)).2.growth_factor = 1 ∧
    (gnix_sfl_init 8 0 0 0 0 0 flZero (callocAt 1000)).2.max_refill_size =
      GNIX_SFL_INIT_SIZE ∧
    (gnix_sfl_init 8 0 0 0 0 0 flZero (callocAt 1000)).2.freelist.length =
      GNIX_SFL_INIT_SIZE.toNat ∧
    (gnix_sfl_init 8 0 5 6 7 9 flZero (callocAt 1000)).2.refill_size = 6 ∧
    (gnix_sfl_init 8 0 5 6 7 9 flZero (callocAt 1000)).2.growth_factor = 7 ∧
    (gnix_sfl_init 8 0 5 6 7 9 flZero (callocAt 1000)).2.max_refill_size = 9 :=
  ⟨(C5_init_zero_defaults 8 0 0 0 0 0 1000 flZero (callocAt 1000)).1 rfl,
   ((C5_init_zero_defaults 8 0 0 0 0 0 1000 flZero (callocAt 1000)).2.2.1
      rfl).2,
   (C5_init_zero_defaults 8 0 0 0 0 0 1000 flZero
      (callocAt 1000)).2.2.2.2.2.2.1 rfl rfl,
   (C5_init_zero_defaults 8 0 0 0 0 0 1000 flZero
      (callocAt 1000)).2.2.2.2.2.2.2.2.2.1 rfl rfl,
   (C5_init_zero_defaults 8 0 5 6 7 9 1000 flZero (callocAt 1000)).2.1
      (by decide),
   (C5_init_zero_defaults 8 0 5 6 7 9 1000 flZero (callocAt 1000)).2.2.2.1
      (by decide),
   (C5_init_zero_defaults 8 0 5 6 7 9 1000 flZero
      (callocAt 1000)).2.2.2.2.1 (by decide)⟩

/-- Claim C1 counterexample: `_gnix_sfl_init` accepts
`refill_size = 100 > max_refill_size = 10` (every assert holds), and after
an exhaustion-triggered refill that succeeds, the standing refill size is
still 100: it exceeds `max_refill_size` and is not
`min(refill_size * growth_factor, max_refill_size) = 10`, because the
update is guarded by `refill_size < max_refill_size`. -/
theorem C1_counterexample :
    poolFat.refill_size = 100 ∧ poolFat.max_refill_size = 10 ∧
    (gnix_sfe_alloc poolFat (callocAt 1000)).fl.freelist = [] ∧
    (gnix_sfe_alloc (gnix_sfe_alloc poolFat (callocAt 1000)).fl
        (callocAt 2000)).ret = FI_SUCCESS ∧
    (runAllocs poolFat [callocAt 1000, callocAt 2000]).refill_size = 100 ∧
    ¬ (runAllocs poolFat [callocAt 1000, callocAt 2000]).refill_size ≤
        (runAllocs poolFat [callocAt 1000, callocAt 2000]).max_refill_size ∧
    (runAllocs poolFat [callocAt 1000, callocAt 2000]).refill_size ≠
      min (poolFat.refill_size * poolFat.growth_factor)
        poolFat.max_refill_size := by
  decide

/-- Claim C1 (amended): provided the growth policy of the pool is well-formed — growth
factor at least 1, standing refill size non-negative and not already above
`max_refill_size`, and `max_refill_size * growth_factor` within the 32-bit
int range so the growth multiplication cannot overflow — then over any
sequence of allocate calls the standing refill size never exceeds
`max_refill_size` and is non-decreasing, and each allocate that performs a
successful exhaustion-triggered refill updates it to exactly
`min(refill_size * growth_factor, max_refill_size)`. -/
theorem C1_amended_growth_cap (fl : SFL) (cs : List Calloc) (c : Calloc)
    (h : RefillInv fl) :
    RefillInv (runAllocs fl cs) ∧
    fl.refill_size ≤ (runAllocs fl cs).refill_size ∧
    (runAllocs fl cs).refill_size ≤ fl.max_refill_size ∧
    (runAllocs fl cs).max_refill_size = fl.max_refill_size ∧
    (fl.freelist = [] → (gnix_sfe_alloc fl c).ret ≠ -FI_ENOMEM →
      (gnix_sfe_alloc fl c).fl.refill_size =
        min (fl.refill_size * fl.growth_factor) fl.max_refill_size) := by
  obtain ⟨g1, g2, g3⟩ := runAllocs_inv cs fl h
  refine ⟨g1, g2, ?_, g3, ?_⟩
  · have hle := g1.2.2.1
    rw [g3] at hle
    exact hle
  · intro hf hret
    cases hc : c (fl.refill_size + 1) fl.elem_size with
    | none =>
        rw [alloc_of_empty_none fl c hf hc] at hret
        exact absurd rfl hret
    | some b =>
        obtain ⟨h1, _, _, _⟩ := alloc_empty_some_fields fl c b hf hc
        rw [h1, grow_min_spec fl h]

theorem C1_witness :
    RefillInv poolEmpty ∧
    (RefillInv (runAllocs poolEmpty [callocAt 1000]) ∧
     poolEmpty.refill_size ≤ (runAllocs poolEmpty [callocAt 1000]).refill_size ∧
     (runAllocs poolEmpty [callocAt 1000]).refill_size ≤
       poolEmpty.max_refill_size ∧
     (runAllocs poolEmpty [callocAt 1000]).max_refill_size =
       poolEmpty.max_refill_size ∧
     (poolEmpty.freelist = [] →
       (gnix_sfe_alloc poolEmpty (callocAt 2000)).ret ≠ -FI_ENOMEM →
       (gnix_sfe_alloc poolEmpty (callocAt 2000)).fl.refill_size =
         min (poolEmpty.refill_size * poolEmpty.growth_factor)
           poolEmpty.max_refill_size)) :=
  ⟨by decide,
   C1_amended_growth_cap poolEmpty [callocAt 1000] (callocAt 2000)
     (by decide)⟩

/-- Claim C2 (code bug): at a pool state where
`refill_size * growth_factor` overflows the 32-bit int
(`refill_size = 2^30 < max_refill_size = 2^30 + 1`, `growth_factor = 2`,
product `2^31`), the refill-size update inside a successful
exhaustion-triggered allocate stores the wrapped value `-2^31` — negative,
not clamped to `max_refill_size` — leaving a standing refill size with
which a later exhausted allocate would call `__gnix_sfl_refill` in
violation of its `assert(n > 0)`. -/
theorem C2_overflow_not_clamped (c : Calloc) (b : Int)
    (hc : c (poolOverflow.refill_size + 1) poolOverflow.elem_size = some b) :
    poolOverflow.refill_size < poolOverflow.max_refill_size ∧
    2 ^ 31 ≤ poolOverflow.refill_size * poolOverflow.growth_factor ∧
    (gnix_sfe_alloc poolOverflow c).fl.refill_size = -(2 ^ 31) ∧
    (gnix_sfe_alloc poolOverflow c).fl.refill_size ≠
      poolOverflow.max_refill_size ∧
    (gnix_sfe_alloc poolOverflow c).fl.refill_size < 0 := by
  have hf : poolOverflow.freelist = [] := rfl
  obtain ⟨h1, _, _, _⟩ := alloc_empty_some_fields poolOverflow c b hf hc
  rw [h1]
  decide

theorem C2_witness :
    poolOverflow.refill_size < poolOverflow.max_refill_size ∧
    2 ^ 31 ≤ poolOverflow.refill_size * poolOverflow.growth_factor ∧
    (gnix_sfe_alloc poolOverflow (callocAt 4096)).fl.refill_size =
      -(2 ^ 31) ∧
    (gnix_sfe_alloc poolOverflow (callocAt 4096)).fl.refill_size ≠
      poolOverflow.max_refill_size ∧
    (gnix_sfe_alloc poolOverflow (callocAt 4096)).fl.refill_size < 0 :=
  C2_overflow_not_clamped (callocAt 4096) 4096 rfl

end GnixFreelist
